import Mathlib

/-!
Verification of the note-scanning-and-transcription pipeline of the
whisper-obsidian-plugin (src/main.ts).  Document text is modelled as
`List Char`; the host vault, the transcoding step and the two remote
clients are oracles collected in an `Env` record.  Stateful effects
(status updates, notices, remote calls, write-backs) are modelled as an
explicit event trace, and a thrown / rejected promise as `Except.error`.
-/

deriving instance DecidableEq for Except

namespace WhisperPlugin

/-- The character list underlying a string literal. -/
def str (s : String) : List Char := s.data

/-- Raw audio bytes; the plugin never inspects them. -/
abbrev Bytes := List Nat

/-- `RecordingStatus` from src/StatusBar. -/
inductive Status where
  | Idle
  | Recording
  | Processing
deriving DecidableEq

/-- Observable events of one run: status updates, user notices,
remote API calls and document write-backs. -/
inductive Ev where
  | stat (s : Status)
  | note (msg : List Char)
  | remoteTranscribe
  | remoteAnalyze
  | write (path text : List Char)
deriving DecidableEq

/-- A vault file as seen by `runScanAndTranscribe`: path, extension
(without dot) and content. -/
structure VFile where
  path : List Char
  ext : List Char
  content : List Char
deriving DecidableEq

/-- External collaborators of the pipeline.  `readBinary` is
`vault.adapter.readBinary` (`Except.error` = thrown I/O error),
`compress` is the ffmpeg transcode (`Except.error` = rejected promise),
`whisper` is the remote transcription result delivered by
`audioHandler.transcribeAudio` and `chatComplete` the remote chat
completion used by `analyzeTranscription` (`none` = failed call). -/
structure Env where
  readBinary : List Char → Except Unit Bytes
  compress : Bytes → Except Unit Bytes
  whisper : Bytes → Option (List Char)
  chatComplete : List Char → Option (List Char)
  apiKey : List Char

/-! ## Generic string helpers -/

/-- Characters matched by the regex metacharacter `.` (no line breaks). -/
def notNL (c : Char) : Bool := !(c == '\n') && !(c == '\r')

/-- The part of `s` up to the next line break: the search space of the
lookahead `.*#transcribed`. -/
def takeLine (s : List Char) : List Char := s.takeWhile notNL

/-- Substring containment. -/
def containsSub (pat : List Char) : List Char → Bool
  | [] => pat.isPrefixOf ([] : List Char)
  | c :: rest => pat.isPrefixOf (c :: rest) || containsSub pat rest

/-- Index of the first occurrence of `pat`, if any. -/
def firstOccur (pat : List Char) : List Char → Option Nat
  | [] => if pat.isPrefixOf ([] : List Char) then some 0 else none
  | c :: rest =>
      if pat.isPrefixOf (c :: rest) then some 0
      else (firstOccur pat rest).map (· + 1)

/-- The `GetSubstitution` processing JavaScript applies to the
replacement string: `$$` emits `$`, `$&` the matched substring, a
dollar before a backquote the text preceding the match, a dollar
before a straight quote the text following it; with a plain-string
pattern there are no capture groups, so every other `$`-sequence is
literal. -/
def getSubstitution (matched before after : List Char) : List Char → List Char
  | [] => []
  | c :: rest =>
      if c = '$' then
        match rest with
        | [] => ['$']
        | d :: rest' =>
            if d = '$' then '$' :: getSubstitution matched before after rest'
            else if d = '&' then matched ++ getSubstitution matched before after rest'
            else if d = Char.ofNat 96 then before ++ getSubstitution matched before after rest'
            else if d = Char.ofNat 39 then after ++ getSubstitution matched before after rest'
            else '$' :: d :: getSubstitution matched before after rest'
      else c :: getSubstitution matched before after rest

/-- JavaScript `String.prototype.replace` with a plain-string pattern:
locate the first occurrence, leave the text unchanged when the pattern
is absent, and otherwise splice in the replacement after
`GetSubstitution` processing (the matched substring is the pattern
itself). -/
def replaceFirst (pat repl text : List Char) : List Char :=
  match firstOccur pat text with
  | none => text
  | some i =>
      text.take i ++
        getSubstitution pat (text.take i) (text.drop (i + pat.length)) repl ++
        text.drop (i + pat.length)

/-- JavaScript `audioFile.split('/')`. -/
def splitSlash : List Char → List (List Char)
  | [] => [[]]
  | c :: rest =>
      if c == '/' then [] :: splitSlash rest
      else
        match splitSlash rest with
        | [] => [[c]]
        | g :: gs => (c :: g) :: gs

/-- `audioFile.split('/').pop()` — the basename used by the rewriter. -/
def basename (r : List Char) : List Char := (splitSlash r).getLastD []

/-! ## Reference extractor (src/main.ts lines 233-243)

The regex is `/!\[\[(.*?\.m4a)\]\](?!.*#transcribed)/g`, run through
`matchAll`.  `findCap` performs the lazy search for the capture group
after an opening `![[`: at each candidate split it first tries to match
`.m4a]]` followed by a succeeding lookahead, and otherwise lets `.*?`
consume one more (non-newline) character — exactly the backtracking
order of the lazy star.  `scanAll` advances one position on failure and
past the whole match on success, as `matchAll` with a global regex does. -/

def transcribedTag : List Char := str "#transcribed"

/-- Lazy search for `(.*?\.m4a)\]\](?!.*#transcribed)` inside the text
following `![[`; returns the capture and the rest of the text after the
match. -/
def findCap : List Char → List Char → Option (List Char × List Char)
  | [], _ => none
  | c :: rest, acc =>
      if (str ".m4a]]").isPrefixOf (c :: rest)
          && !containsSub transcribedTag (takeLine ((c :: rest).drop 6)) then
        some (acc.reverse ++ str ".m4a", (c :: rest).drop 6)
      else if notNL c then findCap rest (c :: acc)
      else none

/-- One `matchAll` sweep (fuel-driven; the fuel only needs to dominate
the number of scanning steps, each of which consumes at least one
character). -/
def scanAll : Nat → List Char → List (List Char)
  | 0, _ => []
  | _ + 1, [] => []
  | fuel + 1, c :: rest =>
      if (str "![[").isPrefixOf (c :: rest) then
        match findCap ((c :: rest).drop 3) [] with
        | some pr => pr.1 :: scanAll fuel pr.2
        | none => scanAll fuel rest
      else scanAll fuel rest

/-- `extractAudioFiles` (src/main.ts lines 233-243). -/
def extractAudioFiles (content : List Char) : List (List Char) :=
  scanAll (content.length + 1) content

/-! ## Asset lookup, clients, rewriter, orchestrator -/

/-- `getAudioBlob` (src/main.ts lines 246-254): reads
`"/Attachements/" + filePath`; a thrown read error is caught and turned
into `null`. -/
def getAudioBlob (env : Env) (filePath : List Char) : Option Bytes :=
  match env.readBinary (str "/Attachements/" ++ filePath) with
  | Except.ok ab => some ab
  | Except.error _ => none

/-- Notice text of src/main.ts line 304. -/
def apiKeyMissingMsg : List Char :=
  str "API key is missing. Please add your API key in the settings."

/-- Notice prefix of src/main.ts line 348. -/
def analyzeErrMsg : List Char := str "Error analyzing transcription."

/-- JavaScript `String.prototype.trim` on the common whitespace set. -/
def isWs (c : Char) : Bool := c == ' ' || c == '\t' || c == '\n' || c == '\r'

/-- Trim of the analysis response (src/main.ts line 345). -/
def trimChars (s : List Char) : List Char :=
  ((s.dropWhile isWs).reverse.dropWhile isWs).reverse

/-- Modelled from the spec: `AudioHandler.transcribeAudio` is not among
the sources (only `src/main.ts` and the settings manager are); per the
spec (section 4.3) the transcription client checks the API key before
any network call and fails without one, otherwise performs one remote
multipart request whose outcome is the transcript or a remote error
(`none`). -/
def transcribeAudio (env : Env) (b : Bytes) : List Ev × Option (List Char) :=
  if env.apiKey = [] then ([], none)
  else ([Ev.remoteTranscribe], env.whisper b)

/-- `analyzeTranscription` (src/main.ts lines 302-351): pre-flight API
key check (a notice and `null`, no remote call, when absent), otherwise
one chat-completion call whose trimmed content is returned, with a
notice and `null` on a failed call. -/
def analyzeTranscription (env : Env) (transcription : List Char) :
    List Ev × Option (List Char) :=
  if env.apiKey = [] then ([Ev.note apiKeyMissingMsg], none)
  else
    match env.chatComplete transcription with
    | some content => ([Ev.remoteAnalyze], some (trimChars content))
    | none => ([Ev.remoteAnalyze, Ev.note analyzeErrMsg], none)

/-- The embed token `![[fileName]]` used as the replace pattern
(src/main.ts line 222). -/
def embedPat (fn : List Char) : List Char := str "![[" ++ fn ++ str "]]"

/-- JavaScript template interpolation of the analysis value
(src/main.ts line 223): a `null` analysis is stringified to `"null"`. -/
def analysisText : Option (List Char) → List Char
  | some a => a
  | none => str "null"

/-- The single replace of src/main.ts lines 221-224: the first
occurrence of `![[fileName]]` becomes the token, the processed marker,
a blank line, the transcript, a blank line and the analysis text. -/
def rewriteForRef (text fn transcript analysis : List Char) : List Char :=
  replaceFirst (embedPat fn)
    (embedPat fn ++ str " #transcribed\n\n" ++ transcript ++ str "\n\n" ++ analysis)
    text

/-- Prefix a batch of events onto a traced result. -/
def mergeEv (evs : List Ev) (r : List Ev × Except Unit (List Char)) :
    List Ev × Except Unit (List Char) :=
  (evs ++ r.1, r.2)

/-- `processAudioFiles` (src/main.ts lines 209-230).  A `null` blob
skips the reference; a rejected transcode propagates (no catch in the
source) and aborts with `Except.error`; a `null` or empty transcription
(JavaScript truthiness of `if (transcription)`) skips the reference;
otherwise the text is rewritten via `rewriteForRef` with the basename. -/
def processAudioFiles (env : Env) : List Char → List (List Char) →
    List Ev × Except Unit (List Char)
  | text, [] => ([], Except.ok text)
  | text, r :: rest =>
      match getAudioBlob env r with
      | none => processAudioFiles env text rest
      | some blob =>
        match env.compress blob with
        | Except.error _ => ([], Except.error ())
        | Except.ok cb =>
          let tr := transcribeAudio env cb
          match tr.2 with
          | none => mergeEv tr.1 (processAudioFiles env text rest)
          | some t =>
            if t = [] then mergeEv tr.1 (processAudioFiles env text rest)
            else
              let an := analyzeTranscription env t
              let newText := rewriteForRef text (basename r) t (analysisText an.2)
              mergeEv (tr.1 ++ an.1) (processAudioFiles env newText rest)

/-- One scan-and-transcribe pass over a document's text: extract the
references, then process them (the text half of `processFile`). -/
def scanPass (env : Env) (text : List Char) : Except Unit (List Char) :=
  (processAudioFiles env text (extractAudioFiles text)).2

/-- `processFile` (src/main.ts lines 197-207): no write-back when no
references are found; on success the updated content is written back;
an exception from processing propagates before the write. -/
def processFile (env : Env) (f : VFile) : List Ev × Except Unit Unit :=
  let refs := extractAudioFiles f.content
  if refs = [] then ([], Except.ok ())
  else
    match processAudioFiles env f.content refs with
    | (evs, Except.ok newText) => (evs ++ [Ev.write f.path newText], Except.ok ())
    | (evs, Except.error _) => (evs, Except.error ())

/-- Notice text of src/main.ts line 160. -/
def noFilesMsg : List Char := str "No files found in the directory."

/-- Notice text of src/main.ts line 169. -/
def completeMsg : List Char := str "Transcription and analysis complete."

/-- Eligibility filter of src/main.ts lines 155-157. -/
def eligibleB (f : VFile) : Bool :=
  (str "Private/Dziennik 2025/").isPrefixOf f.path && f.ext == str "md"

/-- The sequential per-file loop of src/main.ts lines 165-170; an
uncaught exception ends the run with no completion notice and no
return to `Idle`. -/
def batchLoop (env : Env) : List VFile → List Ev
  | [] => [Ev.note completeMsg, Ev.stat Status.Idle]
  | f :: rest =>
      match processFile env f with
      | (evs, Except.ok _) => evs ++ batchLoop env rest
      | (evs, Except.error _) => evs

/-- `runScanAndTranscribe` (src/main.ts lines 152-171) as its event
trace. -/
def runScanAndTranscribe (env : Env) (files : List VFile) : List Ev :=
  Ev.stat Status.Processing ::
    (if files.filter eligibleB = [] then [Ev.note noFilesMsg, Ev.stat Status.Idle]
     else batchLoop env (files.filter eligibleB))

/-! ## Debounce (src/main.ts lines 143-150)

Signals are modelled as a nondecreasing list of arrival times; the
state is the deadline of the pending timer, if any.  A signal clears a
still-pending timer (an already-fired one is untouched —
`clearTimeout` on a fired timer is a no-op) and re-arms it at arrival
time plus the interval; the returned list is the times at which the
scheduled scan fires. -/

def debounceFires (interval : Nat) : List Nat → Option Nat → List Nat
  | [], none => []
  | [], some d => [d]
  | t :: rest, none => debounceFires interval rest (some (t + interval))
  | t :: rest, some d =>
      if d ≤ t then d :: debounceFires interval rest (some (t + interval))
      else debounceFires interval rest (some (t + interval))

/-! ## Claim-side definitions (stated from the spec's words, for
comparison with the source-derived ones) -/

/-- Scan to the first closing `]]`, returning the enclosed content and
the rest. -/
def closeBB : List Char → List Char → Option (List Char × List Char)
  | [], _ => none
  | c :: rest, acc =>
      if (str "]]").isPrefixOf (c :: rest) then some (acc.reverse, (c :: rest).drop 2)
      else closeBB rest (c :: acc)

/-- Follows the claim's words (C4): every `![[..]]` token whose content
ends in the audio extension, in order with duplicates, excluding a
reference that is itself already suffixed with the processed marker. -/
def claimExtract : Nat → List Char → List (List Char)
  | 0, _ => []
  | _ + 1, [] => []
  | fuel + 1, c :: rest =>
      if (str "![[").isPrefixOf (c :: rest) then
        match closeBB ((c :: rest).drop 3) [] with
        | some (content, after) =>
            if (str ".m4a").isSuffixOf content
                && !((str " #transcribed").isPrefixOf after) then
              content :: claimExtract fuel after
            else claimExtract fuel after
        | none => claimExtract fuel rest
      else claimExtract fuel rest

/-- Follows the claim's words (C3, spec section 4.2): a reference with
an internal path separator is already-qualified and resolves at that
exact path; a bare basename first consults the link index, then falls
back to the fixed directory plus the basename. -/
def claimResolve (existsAt : List Char → Bool)
    (index : List Char → Option (List Char)) (ref : List Char) :
    Option (List Char) :=
  let norm := ref.dropWhile (· == '/')
  if norm.contains '/' then
    if existsAt norm then some norm else none
  else
    match index norm with
    | some p => if existsAt p then some p else none
    | none =>
        if existsAt (str "/Attachements/" ++ norm) then
          some (str "/Attachements/" ++ norm)
        else none

/-! ## Concrete environments used by witnesses and counterexamples -/

/-- Every collaborator succeeds deterministically. -/
def env0 : Env :=
  { readBinary := fun _ => Except.ok [0], compress := Except.ok,
    whisper := fun _ => some (str "T"), chatComplete := fun _ => some (str "A"),
    apiKey := str "k" }

/-- The transcode step always rejects. -/
def envC : Env :=
  { readBinary := fun _ => Except.ok [0], compress := fun _ => Except.error (),
    whisper := fun _ => some (str "T"), chatComplete := fun _ => some (str "A"),
    apiKey := str "k" }

/-- Every binary read throws. -/
def envR : Env :=
  { readBinary := fun _ => Except.error (), compress := Except.ok,
    whisper := fun _ => some (str "T"), chatComplete := fun _ => some (str "A"),
    apiKey := str "k" }

/-- The remote transcription always fails. -/
def envT : Env :=
  { readBinary := fun _ => Except.ok [0], compress := Except.ok,
    whisper := fun _ => none, chatComplete := fun _ => some (str "A"),
    apiKey := str "k" }

/-- The remote transcription always returns the empty transcript. -/
def envE : Env :=
  { readBinary := fun _ => Except.ok [0], compress := Except.ok,
    whisper := fun _ => some [], chatComplete := fun _ => some (str "A"),
    apiKey := str "k" }

/-- An asset exists exactly at the qualified path `sub/dir/clip.m4a`. -/
def existsQ (p : List Char) : Bool := p == str "sub/dir/clip.m4a"

/-- Vault whose only readable path is `sub/dir/clip.m4a`. -/
def envQ : Env :=
  { readBinary := fun p => if existsQ p then Except.ok [1] else Except.error (),
    compress := Except.ok, whisper := fun _ => some (str "T"),
    chatComplete := fun _ => some (str "A"), apiKey := str "k" }

/-- No API key configured. -/
def envK : Env :=
  { readBinary := fun _ => Except.error (), compress := Except.ok,
    whisper := fun _ => none, chatComplete := fun _ => some (str "A"),
    apiKey := [] }

/-- A document with one reference on a watched path, used with `envC`. -/
def fC : VFile :=
  ⟨str "Private/Dziennik 2025/d.md", str "md", str "![[a.m4a]]\n![[b.m4a]]"⟩

/-- A file set with no eligible document (wrong extension, wrong path). -/
def files9 : List VFile :=
  [⟨str "Private/Dziennik 2025/a.txt", str "txt", str ""⟩,
   ⟨str "Other/b.md", str "md", str ""⟩]

/-- Full-fuel wrapper for the claim-side extractor. -/
def claimExtractAll (content : List Char) : List (List Char) :=
  claimExtract (content.length + 1) content

/-! ## General lemmas about the string helpers -/

/-- Last element with a default (structurally recursive form). -/
def lastD : List Nat → Nat → Nat
  | [], d => d
  | t :: rest, _ => lastD rest t

/-- A character that is not a dollar passes through the substitution
scan untouched. -/
theorem getSubstitution_cons (m b a : List Char) (c : Char) (rest : List Char)
    (hc : ¬ (c = '$')) :
    getSubstitution m b a (c :: rest) = c :: getSubstitution m b a rest := by
  conv_lhs => unfold getSubstitution
  rw [if_neg hc]

/-- A replacement free of `'$'` passes through `GetSubstitution`
unchanged. -/
theorem getSubstitution_eq_self (m b a : List Char) :
    ∀ repl, '$' ∉ repl → getSubstitution m b a repl = repl := by
  intro repl
  induction repl with
  | nil => intro _; rfl
  | cons c rest ih =>
    intro h
    have hc : ¬ (c = '$') := fun hh => h (by rw [hh]; exact List.mem_cons_self _ _)
    have hrest : '$' ∉ rest := fun hh => h (List.mem_cons_of_mem c hh)
    rw [getSubstitution_cons m b a c rest hc, ih hrest]

theorem no_dollar_append {l₁ l₂ : List Char} (h₁ : '$' ∉ l₁) (h₂ : '$' ∉ l₂) :
    '$' ∉ l₁ ++ l₂ :=
  fun hm => (List.mem_append.mp hm).elim h₁ h₂

theorem replaceFirst_of_none (pat repl text : List Char)
    (h : firstOccur pat text = none) : replaceFirst pat repl text = text := by
  simp [replaceFirst, h]

theorem replaceFirst_of_firstOccur (pat repl : List Char)
    (hrepl : '$' ∉ repl) (text : List Char) (i : Nat)
    (h : firstOccur pat text = some i) :
    replaceFirst pat repl text =
      text.take i ++ repl ++ text.drop (i + pat.length) := by
  simp [replaceFirst, h, getSubstitution_eq_self _ _ _ repl hrepl]

/-- Every capture produced by the lazy search ends in `.m4a`. -/
theorem findCap_ends :
    ∀ s acc pr, findCap s acc = some pr → ∃ l, pr.1 = l ++ str ".m4a" := by
  intro s
  induction s with
  | nil =>
    intro acc pr h
    exact Option.noConfusion h
  | cons c rest ih =>
    intro acc pr h
    simp only [findCap] at h
    split at h
    · have h' := (Option.some.injEq _ _).mp h
      exact ⟨acc.reverse, (congrArg Prod.fst h').symm⟩
    · split at h
      · exact ih _ _ h
      · exact Option.noConfusion h

/-- Every token the scanner returns ends in `.m4a`. -/
theorem scanAll_ends :
    ∀ fuel s cap, cap ∈ scanAll fuel s → ∃ l, cap = l ++ str ".m4a" := by
  intro fuel
  induction fuel with
  | zero =>
    intro s cap h
    simp [scanAll] at h
  | succ n ih =>
    intro s cap h
    cases s with
    | nil => simp [scanAll] at h
    | cons c rest =>
      simp only [scanAll] at h
      split at h
      · split at h
        · rename_i pr hfc
          rw [List.mem_cons] at h
          cases h with
          | inl hh =>
            obtain ⟨l, hl⟩ := findCap_ends _ _ _ hfc
            exact ⟨l, hh.trans hl⟩
          | inr hh => exact ih pr.2 cap hh
        · exact ih rest cap h
      · exact ih rest cap h

/-- Every token extracted from a document ends in `.m4a`. -/
theorem extractAudioFiles_ends (content cap : List Char)
    (h : cap ∈ extractAudioFiles content) : ∃ l, cap = l ++ str ".m4a" :=
  scanAll_ends _ _ _ h

/-- Re-arming behaviour of the pending timer: with one signal consumed
and every later signal arriving before the pending deadline, the timer
fires exactly once, at the last arrival plus the interval. -/
theorem debounceFires_chain (interval : Nat) :
    ∀ (rest : List Nat) (t : Nat),
      List.Chain' (fun a b => a ≤ b ∧ b < a + interval) (t :: rest) →
      debounceFires interval rest (some (t + interval)) =
        [lastD rest t + interval] := by
  intro rest
  induction rest with
  | nil => intro t _; rfl
  | cons u rest' ih =>
    intro t hc
    have hrel : t ≤ u ∧ u < t + interval := List.chain'_cons.mp hc |>.1
    have hc' : List.Chain' (fun a b => a ≤ b ∧ b < a + interval) (u :: rest') :=
      List.chain'_cons.mp hc |>.2
    have hlt : ¬ (t + interval ≤ u) := by omega
    simp only [debounceFires, if_neg hlt]
    exact ih u hc'

/-! ## Claim theorems -/

/-- C1 (counterexample): on a document in which the same reference
token occurs twice, the rewriter re-targets the first (already
annotated) occurrence on every pass, so the second scan-and-transcribe
pass changes the first pass's output. -/
theorem C1_counterexample :
    scanPass env0 (str "![[a.m4a]] x ![[a.m4a]]") =
      Except.ok (str "![[a.m4a]] #transcribed\n\nT\n\nA #transcribed\n\nT\n\nA x ![[a.m4a]]") ∧
    scanPass env0 (str "![[a.m4a]] #transcribed\n\nT\n\nA #transcribed\n\nT\n\nA x ![[a.m4a]]") =
      Except.ok (str "![[a.m4a]] #transcribed\n\nT\n\nA #transcribed\n\nT\n\nA #transcribed\n\nT\n\nA x ![[a.m4a]]") ∧
    str "![[a.m4a]] #transcribed\n\nT\n\nA #transcribed\n\nT\n\nA x ![[a.m4a]]" ≠
      str "![[a.m4a]] #transcribed\n\nT\n\nA #transcribed\n\nT\n\nA #transcribed\n\nT\n\nA x ![[a.m4a]]" := by
  refine ⟨by decide, by decide, by decide⟩

/-- C1 (amended): the scan-and-transcribe pass is the identity on any
text from which the extractor recovers no references — in particular on
a first pass's output whenever rescanning it extracts nothing, which
holds when each extracted reference's token occurs exactly once and the
inserted transcript introduces no new tokens. -/
theorem C1_second_pass_identity (env : Env) (text : List Char)
    (h : extractAudioFiles text = []) : scanPass env text = Except.ok text := by
  simp [scanPass, h, processAudioFiles]

/-- C1 witness: the first-pass output of `"intro ![[voice.m4a]] outro"`
rescans to no references, so the second pass returns it unchanged. -/
theorem C1_witness :
    extractAudioFiles (str "intro ![[voice.m4a]] #transcribed\n\nT\n\nA outro") = [] ∧
    scanPass env0 (str "intro ![[voice.m4a]] #transcribed\n\nT\n\nA outro") =
      Except.ok (str "intro ![[voice.m4a]] #transcribed\n\nT\n\nA outro") :=
  ⟨by decide, C1_second_pass_identity env0 _ (by decide)⟩

/-- C2 (counterexample): rewriting `![[clip.m4a]]` in
`"intro ![[clip.m4a]] outro"` with transcript `"hello"` and analysis
`"tasks"` places the analysis inline, before `"outro"`; the result does
not end with the analysis block, contradicting "appended at the end of
the whole document". -/
theorem C2_counterexample :
    rewriteForRef (str "intro ![[clip.m4a]] outro") (str "clip.m4a")
        (str "hello") (str "tasks") =
      str "intro ![[clip.m4a]] #transcribed\n\nhello\n\ntasks outro" ∧
    (str "tasks").isSuffixOf
        (rewriteForRef (str "intro ![[clip.m4a]] outro") (str "clip.m4a")
          (str "hello") (str "tasks")) = false := by
  refine ⟨by decide, by decide⟩

/-- C2 (amended): the rewriter replaces the first occurrence of
`![[basename]]` with the original markup, the processed marker, a blank
line, the transcript, a blank line and the analysis text, all inline at
the match position; nothing is appended at the document end, and the
surrounding text before and after the match is unchanged.  (The
basename, transcript and analysis are assumed free of `'$'`, whose
`GetSubstitution` treatment inside the replacement the embedding also
models.) -/
theorem C2_rewrite_inline (text r t a : List Char) (i : Nat)
    (hd1 : '$' ∉ t) (hd2 : '$' ∉ a) (hd3 : '$' ∉ basename r)
    (h : firstOccur (embedPat (basename r)) text = some i) :
    rewriteForRef text (basename r) t a =
      text.take i ++ embedPat (basename r) ++ str " #transcribed\n\n" ++ t ++
        str "\n\n" ++ a ++ text.drop (i + (embedPat (basename r)).length) := by
  have hb1 : ('$' : Char) ∉ str "![[" := by decide
  have hb2 : ('$' : Char) ∉ str "]]" := by decide
  have hb3 : ('$' : Char) ∉ str " #transcribed\n\n" := by decide
  have hb4 : ('$' : Char) ∉ str "\n\n" := by decide
  have hpat : '$' ∉ embedPat (basename r) :=
    no_dollar_append (no_dollar_append hb1 hd3) hb2
  have hrepl : '$' ∉ embedPat (basename r) ++ str " #transcribed\n\n" ++ t ++
      str "\n\n" ++ a :=
    no_dollar_append (no_dollar_append (no_dollar_append
      (no_dollar_append hpat hb3) hd1) hb4) hd2
  unfold rewriteForRef
  rw [replaceFirst_of_firstOccur _ _ hrepl text i h]
  simp [List.append_assoc]

/-- C2 witness: the inline rewrite at the concrete intro/outro example,
with the basename taken from the qualified reference `sub/clip.m4a`. -/
theorem C2_witness :
    firstOccur (embedPat (basename (str "sub/clip.m4a")))
        (str "intro ![[clip.m4a]] outro") = some 6 ∧
    rewriteForRef (str "intro ![[clip.m4a]] outro") (basename (str "sub/clip.m4a"))
        (str "hello") (str "tasks") =
      (str "intro ![[clip.m4a]] outro").take 6 ++
        embedPat (basename (str "sub/clip.m4a")) ++ str " #transcribed\n\n" ++
        str "hello" ++ str "\n\n" ++ str "tasks" ++
        (str "intro ![[clip.m4a]] outro").drop
          (6 + (embedPat (basename (str "sub/clip.m4a"))).length) :=
  ⟨by decide,
   C2_rewrite_inline (str "intro ![[clip.m4a]] outro") (str "sub/clip.m4a")
     (str "hello") (str "tasks") 6 (by decide) (by decide) (by decide) (by decide)⟩

/-- C3 (counterexample): for the qualified reference
`"sub/dir/clip.m4a"` with an asset existing exactly at that path, the
claim's resolver succeeds at the exact path, but the code prepends the
fixed directory and fails. -/
theorem C3_counterexample :
    claimResolve existsQ (fun _ => none) (str "sub/dir/clip.m4a") =
      some (str "sub/dir/clip.m4a") ∧
    getAudioBlob envQ (str "sub/dir/clip.m4a") = none := by
  refine ⟨by decide, by decide⟩

/-- C3 (amended): resolution never treats a slash-qualified reference
specially and consults no link index: every reference, qualified or
bare, is read at the fixed directory `/Attachements/` plus the full
reference string, succeeding exactly when an asset exists there. -/
theorem C3_fixed_dir_resolution (env : Env) (ref : List Char) (b : Bytes) :
    getAudioBlob env ref = some b ↔
      env.readBinary (str "/Attachements/" ++ ref) = Except.ok b := by
  unfold getAudioBlob
  cases h : env.readBinary (str "/Attachements/" ++ ref) with
  | ok a => simp
  | error e => simp

/-- C4 (counterexample): in
`"![[a.m4a]] ![[b.m4a]] #transcribed"` only `b.m4a` is suffixed with
the processed marker, so the claim returns `a.m4a`; the code's
lookahead sees the marker later on the line and extracts nothing. -/
theorem C4_counterexample :
    extractAudioFiles (str "![[a.m4a]] ![[b.m4a]] #transcribed") = [] ∧
    claimExtractAll (str "![[a.m4a]] ![[b.m4a]] #transcribed") = [str "a.m4a"] := by
  refine ⟨by decide, by decide⟩

/-- C4 (amended): the extractor returns the regex engine's captures in
match order with duplicates preserved, and every returned capture ends
in `.m4a`; exclusion is not per-reference: a candidate match is
rejected when the processed marker occurs later on its line, after
which the lazy capture backtracks and may span across `]]`.
Concretely: `![[a.m4a]] ![[b.m4a]] #transcribed` yields nothing,
`![[a.m4a]] #transcribed ![[b.m4a]]` yields the single spanning capture
`a.m4a]] #transcribed ![[b.m4a`, `![[a.m4a]] ![[a.m4a]]` yields the
duplicate token twice in order, and the claim's two-token example
yields only the unprocessed token when the occurrences are on separate
lines. -/
theorem C4_extractor_behavior :
    extractAudioFiles (str "![[voice.m4a]]\n![[voice.m4a]] #transcribed") =
      [str "voice.m4a"] ∧
    extractAudioFiles (str "![[a.m4a]] ![[b.m4a]] #transcribed") = [] ∧
    extractAudioFiles (str "![[a.m4a]] #transcribed ![[b.m4a]]") =
      [str "a.m4a]] #transcribed ![[b.m4a"] ∧
    extractAudioFiles (str "![[a.m4a]] ![[a.m4a]]") =
      [str "a.m4a", str "a.m4a"] ∧
    (∀ content cap, cap ∈ extractAudioFiles content →
      ∃ l, cap = l ++ str ".m4a") := by
  refine ⟨by decide, by decide, by decide, by decide, ?_⟩
  intro content cap h
  exact extractAudioFiles_ends content cap h

/-- C4 witness: the universal conjunct at a concrete extraction. -/
theorem C4_witness :
    str "voice.m4a" ∈ extractAudioFiles (str "![[voice.m4a]]") ∧
    ∃ l, str "voice.m4a" = l ++ str ".m4a" :=
  ⟨by decide,
   C4_extractor_behavior.2.2.2.2 (str "![[voice.m4a]]") (str "voice.m4a")
     (by decide)⟩

/-- C6 (counterexample): a transcoding failure on the first reference
rejects uncaught: the scan aborts with no write-back, no completion
notice and no return to `Idle`, and the second reference is never
processed — contradicting "only that reference is skipped and the
final text is still written back". -/
theorem C6_counterexample :
    runScanAndTranscribe envC [fC] = [Ev.stat Status.Processing] := by
  decide

/-- C6 (amended): a failed asset read (null blob) or a failed
transcription skips only that reference and processing continues with
the rest, but a transcoding failure aborts the whole pass with an
error. -/
theorem C6_skip_and_abort (env : Env) (text r : List Char)
    (rest : List (List Char)) :
    (getAudioBlob env r = none →
      processAudioFiles env text (r :: rest) = processAudioFiles env text rest) ∧
    (∀ b, getAudioBlob env r = some b → env.compress b = Except.error () →
      processAudioFiles env text (r :: rest) = ([], Except.error ())) ∧
    (∀ b cb, getAudioBlob env r = some b → env.compress b = Except.ok cb →
      (transcribeAudio env cb).2 = none ∨ (transcribeAudio env cb).2 = some [] →
      processAudioFiles env text (r :: rest) =
        mergeEv (transcribeAudio env cb).1 (processAudioFiles env text rest)) := by
  refine ⟨?_, ?_, ?_⟩
  · intro h
    simp [processAudioFiles, h]
  · intro b h1 h2
    simp [processAudioFiles, h1, h2]
  · intro b cb h1 h2 h3
    cases h3 with
    | inl h3 => simp [processAudioFiles, h1, h2, h3]
    | inr h3 => simp [processAudioFiles, h1, h2, h3]

/-- C6 witness: the branches at concrete environments — a failed read
skips, a transcode rejection aborts, a null transcription skips, and an
empty transcription skips. -/
theorem C6_witness :
    processAudioFiles envR (str "x") [str "a.m4a"] =
      processAudioFiles envR (str "x") [] ∧
    processAudioFiles envC (str "x") [str "a.m4a"] = ([], Except.error ()) ∧
    processAudioFiles envT (str "x") [str "a.m4a"] =
      mergeEv (transcribeAudio envT [0]).1 (processAudioFiles envT (str "x") []) ∧
    processAudioFiles envE (str "x") [str "a.m4a"] =
      mergeEv (transcribeAudio envE [0]).1 (processAudioFiles envE (str "x") []) :=
  ⟨(C6_skip_and_abort envR (str "x") (str "a.m4a") []).1 (by decide),
   (C6_skip_and_abort envC (str "x") (str "a.m4a") []).2.1 [0] (by decide) (by decide),
   (C6_skip_and_abort envT (str "x") (str "a.m4a") []).2.2 [0] [0] (by decide)
     (by decide) (Or.inl (by decide)),
   (C6_skip_and_abort envE (str "x") (str "a.m4a") []).2.2 [0] [0] (by decide)
     (by decide) (Or.inr (by decide))⟩

/-- C7: with an empty API key the analysis call produces only the
missing-key notice and a null result, and the (spec-modelled)
transcription call produces no event and a null result — in both cases
the traces contain no remote-call event, so no network request is
attempted. -/
theorem C7_no_network_without_key (env : Env) (t : List Char) (b : Bytes)
    (h : env.apiKey = []) :
    analyzeTranscription env t = ([Ev.note apiKeyMissingMsg], none) ∧
    transcribeAudio env b = ([], none) := by
  constructor
  · simp [analyzeTranscription, h]
  · simp [transcribeAudio, h]

/-- C7 witness: the keyless environment. -/
theorem C7_witness :
    analyzeTranscription envK (str "t") = ([Ev.note apiKeyMissingMsg], none) ∧
    transcribeAudio envK [0] = ([], none) :=
  ⟨(C7_no_network_without_key envK (str "t") [0] rfl).1,
   (C7_no_network_without_key envK (str "t") [0] rfl).2⟩

/-- C8: for any nonempty stream of file-change signals in which each
signal arrives before the previous one's quiet interval elapses, the
debounce schedules exactly one scan, firing once at the last signal's
arrival time plus the interval. -/
theorem C8_debounce_single_scan (interval : Nat) (ts : List Nat)
    (hne : ts ≠ [])
    (hc : List.Chain' (fun a b => a ≤ b ∧ b < a + interval) ts) :
    debounceFires interval ts none = [lastD ts 0 + interval] := by
  cases ts with
  | nil => exact absurd rfl hne
  | cons t rest =>
    simp only [debounceFires]
    exact debounceFires_chain interval rest t hc

/-- C8 witness: three signals inside the 10-second quiet interval
produce exactly one scan, 10 seconds after the last signal. -/
theorem C8_witness :
    ([0, 3000, 5000] : List Nat) ≠ [] ∧
    List.Chain' (fun a b => a ≤ b ∧ b < a + 10000) [0, 3000, 5000] ∧
    debounceFires 10000 [0, 3000, 5000] none = [15000] :=
  ⟨by decide, by norm_num [List.chain'_cons],
   C8_debounce_single_scan 10000 [0, 3000, 5000] (by decide)
     (by norm_num [List.chain'_cons])⟩

/-- C9: when the file set contains no eligible document the scan's
trace is exactly status `Processing`, the single "no files found"
notice, and status `Idle` — one notice, no remote call, no write. -/
theorem C9_empty_scan (env : Env) (files : List VFile)
    (h : files.filter eligibleB = []) :
    runScanAndTranscribe env files =
      [Ev.stat Status.Processing, Ev.note noFilesMsg, Ev.stat Status.Idle] := by
  simp [runScanAndTranscribe, h]

/-- C9 witness: a set with a wrong-extension file and an unwatched-path
file has no eligible document. -/
theorem C9_witness :
    files9.filter eligibleB = [] ∧
    runScanAndTranscribe env0 files9 =
      [Ev.stat Status.Processing, Ev.note noFilesMsg, Ev.stat Status.Idle] :=
  ⟨by decide, C9_empty_scan env0 files9 (by decide)⟩

/-- C10: an unreadable asset (null blob) or a null or empty
transcription leaves the resulting text exactly what the remaining
references produce on the unchanged input text; and when the text holds
no occurrence of the embed token the rewrite returns it verbatim. -/
theorem C10_failures_leave_text (env : Env) (text r : List Char)
    (rest : List (List Char)) :
    (getAudioBlob env r = none →
      (processAudioFiles env text (r :: rest)).2 =
        (processAudioFiles env text rest).2) ∧
    (∀ b cb, getAudioBlob env r = some b → env.compress b = Except.ok cb →
      (transcribeAudio env cb).2 = none ∨ (transcribeAudio env cb).2 = some [] →
      (processAudioFiles env text (r :: rest)).2 =
        (processAudioFiles env text rest).2) ∧
    (∀ fn t a, firstOccur (embedPat fn) text = none →
      rewriteForRef text fn t a = text) := by
  refine ⟨?_, ?_, ?_⟩
  · intro h
    simp [processAudioFiles, h]
  · intro b cb h1 h2 h3
    cases h3 with
    | inl h3 => simp [processAudioFiles, h1, h2, h3, mergeEv]
    | inr h3 => simp [processAudioFiles, h1, h2, h3, mergeEv]
  · intro fn t a h
    unfold rewriteForRef
    exact replaceFirst_of_none _ _ text h

/-- C10 witness: a failed read, a failed transcription, and a text with
no matching token, at concrete inputs. -/
theorem C10_witness :
    (processAudioFiles envR (str "x") [str "a.m4a"]).2 =
      (processAudioFiles envR (str "x") []).2 ∧
    (processAudioFiles envT (str "x") [str "a.m4a"]).2 =
      (processAudioFiles envT (str "x") []).2 ∧
    rewriteForRef (str "no tokens here") (str "clip.m4a") (str "hello")
      (str "tasks") = str "no tokens here" :=
  ⟨(C10_failures_leave_text envR (str "x") (str "a.m4a") []).1 (by decide),
   (C10_failures_leave_text envT (str "x") (str "a.m4a") []).2.1 [0] [0]
     (by decide) (by decide) (Or.inl (by decide)),
   (C10_failures_leave_text env0 (str "no tokens here") (str "a.m4a") []).2.2
     (str "clip.m4a") (str "hello") (str "tasks") (by decide)⟩

end WhisperPlugin
